import Mathlib

/-!
Verification of the smux session-orchestration tool (src/smux.py).

Python strings are modelled as `List Char` (`PyStr`), Python ints as `Int`,
and the tmux side effects of the program as explicit traces carried in a
state record.  Every definition below is a direct translation of the
corresponding Python function in src/smux.py; the few places where an
external system (the tmux server, the re module, the OS) is abstracted are
marked by comments.
-/

namespace smux

/-- Python strings, modelled as lists of characters. -/
abbrev PyStr := List Char

/-- The single-quote character, used by `prepareCommand`. -/
def squote : Char := '\''

/-- The backslash character (the line-continuation marker). -/
def bslash : Char := '\\'

/-- ASCII whitespace as recognised by Python `str.strip()` / `shlex`
(space, tab, newline, carriage return, vertical tab, form feed).
Non-ASCII whitespace is out of scope. -/
def pyIsSpace (c : Char) : Bool :=
  c = ' ' ∨ c = '\t' ∨ c = '\n' ∨ c = '\r' ∨ c = Char.ofNat 11 ∨ c = Char.ofNat 12

/-- Python `s.strip()`: remove leading and trailing whitespace. -/
def pyStrip (s : PyStr) : PyStr :=
  ((s.dropWhile pyIsSpace).reverse.dropWhile pyIsSpace).reverse

/-- Python `s.split(sep)` for a one-character separator `sep`:
split at every occurrence, keeping empty parts (`"".split(c) = [""]`). -/
def pySplit (sep : Char) : PyStr → List PyStr
  | [] => [[]]
  | c :: cs =>
    if c = sep then [] :: pySplit sep cs
    else
      match pySplit sep cs with
      | [] => [[c]]
      | g :: gs => (c :: g) :: gs

/-- Python `s.find(sub)` / `s.index(sub)`: index of the first occurrence of
`sub` as a substring of `s`, if any. -/
def pyFind (sub : PyStr) : PyStr → Option Nat
  | [] => if sub = [] then some 0 else none
  | c :: cs =>
    if sub.isPrefixOf (c :: cs) then some 0
    else (pyFind sub cs).map (· + 1)

/-- Python `sub in s` (substring containment). -/
def pyContains (sub s : PyStr) : Bool := (pyFind sub s).isSome

/-- Python `s.endswith(m)` for the one-character marker `m`. -/
def pyEndsWith (m : Char) (s : PyStr) : Bool := s.getLast? = some m

/-- Python `s.startswith(p)`. -/
def pyStartsWith (p : PyStr) (s : PyStr) : Bool := p.isPrefixOf s

/-- Digit-run parser implementing Python integer-literal digits:
underscores are allowed, but only singly and only between digits.
`acc` is the value so far, `prev` records whether the previous character
was a digit (so the run may end here). -/
def pyDigitsCore (acc : Nat) (prev : Bool) : PyStr → Option Nat
  | [] => if prev then some acc else none
  | c :: cs =>
    if c.isDigit then pyDigitsCore (acc * 10 + (c.toNat - 48)) true cs
    else if c = '_' ∧ prev then pyDigitsCore acc false cs
    else none

/-- Python `int(s)` for decimal strings: optional surrounding whitespace,
optional sign, then digits (with the underscore rule). -/
def pyIntParse (s : PyStr) : Option Int :=
  match pyStrip s with
  | '+' :: ds => (pyDigitsCore 0 false ds).map Int.ofNat
  | '-' :: ds => (pyDigitsCore 0 false ds).map (fun n => -(Int.ofNat n))
  | ds => (pyDigitsCore 0 false ds).map Int.ofNat

/-- Validity of a digit run for `float()` (value is irrelevant, smux only
uses float values as sleep durations, which are timing and out of scope). -/
def pyDigitRunOk (s : PyStr) : Bool := (pyDigitsCore 0 false s).isSome

/-- Split a string at the first character satisfying `p`, returning the part
before and the part after (excluding the split character), if found. -/
def splitAtFirst (p : Char → Bool) : PyStr → Option (PyStr × PyStr)
  | [] => none
  | c :: cs =>
    if p c then some ([], cs)
    else (splitAtFirst p cs).map (fun q => (c :: q.1, q.2))

/-- Mantissa of a Python float literal: `d`, `d.`, `.d` or `d.d`. -/
def pyMantissaOk (m : PyStr) : Bool :=
  match splitAtFirst (· = '.') m with
  | none => pyDigitRunOk m
  | some (a, b) =>
    ¬ (a = [] ∧ b = []) ∧ (a = [] ∨ pyDigitRunOk a) ∧ (b = [] ∨ pyDigitRunOk b)

/-- Exponent part of a Python float literal: optional sign then digits. -/
def pyExpOk (e : PyStr) : Bool :=
  match e with
  | '+' :: ds => pyDigitRunOk ds
  | '-' :: ds => pyDigitRunOk ds
  | ds => pyDigitRunOk ds

/-- Does Python `float(s)` succeed?  (The numeric value is never needed by
the model: smux only uses floats for sleep/poll intervals.)  Grammar:
optional whitespace and sign, then `inf`/`infinity`/`nan` (case-insensitive)
or a mantissa with an optional `e`/`E` exponent. -/
def pyFloatOk (s : PyStr) : Bool :=
  let t := pyStrip s
  let t := match t with
    | '+' :: r => r
    | '-' :: r => r
    | r => r
  let low := t.map Char.toLower
  if low = ('i' :: 'n' :: 'f' :: []) then true
  else if low = ('i' :: 'n' :: 'f' :: 'i' :: 'n' :: 'i' :: 't' :: 'y' :: []) then true
  else if low = ('n' :: 'a' :: 'n' :: []) then true
  else
    match splitAtFirst (fun c => c = 'e' ∨ c = 'E') t with
    | none => pyMantissaOk t
    | some (m, e) => pyMantissaOk m ∧ pyExpOk e

/-- Python list slice `lst[start:]` (`start` may be negative). -/
def pySliceFrom (start : Int) (l : List PyStr) : List PyStr :=
  if start ≥ 0 then l.drop start.toNat
  else l.drop (l.length - min l.length (-start).toNat)

/-- Python `str(i)` for an int. -/
def pyRepr (i : Int) : PyStr := (toString i).toList

/-! ## shlex.split (CPython, posix mode with whitespace_split)

`sendCommand` tokenizes `#smux` directive lines with `shlex.split`.  The
state machine below implements CPython's `shlex` in the configuration used
by `shlex.split`: posix rules, `whitespace_split=True`, no comment
characters and no punctuation characters.  An unterminated quote or a
trailing escape raises `ValueError` in Python, modelled as `none`. -/

/-- Tokenizer states: between tokens, inside a bare word, inside a quote,
or just after an escape character (remembering the quote context, `none`
for an escape outside quotes). -/
inductive ShlexState where
  | ws : ShlexState
  | word : ShlexState
  | quoted (q : Char) : ShlexState
  | escaped (fromQuote : Option Char) : ShlexState
deriving DecidableEq

/-- One pass of the `shlex` state machine.  `quoted` is CPython's `quoted`
flag (the current token contained a quoted section, so it is emitted even
when empty); `tok` is the token accumulator and `acc` the emitted tokens. -/
def shlexRun (st : ShlexState) (quoted : Bool) (tok : PyStr) (acc : List PyStr) :
    PyStr → Option (List PyStr)
  | [] =>
    match st with
    | .ws => some acc.reverse
    | .word => if tok ≠ [] ∨ quoted then some (tok.reverse :: acc).reverse else some acc.reverse
    | .quoted _ => none
    | .escaped _ => none
  | c :: cs =>
    match st with
    | .ws =>
      if pyIsSpace c then shlexRun .ws quoted tok acc cs
      else if c = squote ∨ c = '"' then shlexRun (.quoted c) true tok acc cs
      else if c = bslash then shlexRun (.escaped none) quoted tok acc cs
      else shlexRun .word quoted (c :: tok) acc cs
    | .word =>
      if pyIsSpace c then
        if tok ≠ [] ∨ quoted then shlexRun .ws false [] (tok.reverse :: acc) cs
        else shlexRun .ws false [] acc cs
      else if c = squote ∨ c = '"' then shlexRun (.quoted c) true tok acc cs
      else if c = bslash then shlexRun (.escaped none) quoted tok acc cs
      else shlexRun .word quoted (c :: tok) acc cs
    | .quoted q =>
      if c = q then shlexRun .word quoted tok acc cs
      else if q = '"' ∧ c = bslash then shlexRun (.escaped (some q)) quoted tok acc cs
      else shlexRun (.quoted q) quoted (c :: tok) acc cs
    | .escaped fq =>
      match fq with
      | none => shlexRun .word quoted (c :: tok) acc cs
      | some q =>
        -- Inside double quotes only the quote and the escape character may
        -- be escaped; otherwise the backslash stays in the token.
        if c ≠ bslash ∧ c ≠ q then shlexRun (.quoted q) quoted (c :: bslash :: tok) acc cs
        else shlexRun (.quoted q) quoted (c :: tok) acc cs

/-- Python `shlex.split(s)`: `none` models the `ValueError` raised on an
unterminated quote or trailing escape. -/
def shlexSplit (s : PyStr) : Option (List PyStr) := shlexRun .ws false [] [] s

/-! ## digestCommands (src/smux.py lines 253-312) -/

/-- The directive marker `"#smux "`. -/
def smuxTag : PyStr := ('#' :: 's' :: 'm' :: 'u' :: 'x' :: ' ' :: [])

/-- The filter on raw command lines (line 288-289):
`x != '' and (x.startswith("#smux ") or not x.startswith("#"))`. -/
def keepLine (x : PyStr) : Bool :=
  x ≠ [] ∧ (pyStartsWith smuxTag x ∨ ¬ pyStartsWith ('#' :: []) x)

/-- The scanning loop of `digestCommands` (lines 290-311): `buf` is the
Python `bufferedLine` (`none` when no continuation is open). -/
def digestLoop (buf : Option PyStr) : List PyStr → List PyStr
  | [] =>
    match buf with
    | none => []
    | some b => [b]
  | line :: rest =>
    match buf with
    | some b =>
      let b := b ++ line
      if pyEndsWith bslash b then digestLoop (some b.dropLast) rest
      else b :: digestLoop none rest
    | none =>
      if pyStartsWith smuxTag line ∧ pyEndsWith bslash line then
        digestLoop (some line.dropLast) rest
      else line :: digestLoop none rest

/-- `digestCommands` (lines 253-312): drop comments/empty lines, then join
`#smux` continuation lines. -/
def digestCommands (commands : List PyStr) : List PyStr :=
  digestLoop none (commands.filter keepLine)

/-! ## prepareCommand (src/smux.py lines 336-346) -/

/-- Wrap a string in single quotes: Python `f"'{x}'"`. -/
def wrapQuotes (x : PyStr) : PyStr := squote :: x ++ [squote]

/-- The join separator `"'"` (double-quote, single-quote, double-quote). -/
def dquoteSep : PyStr := ('"' :: squote :: '"' :: [])

/-- `sendCommand.prepareCommand` (lines 336-346): escape a string for
tmux `send-keys -l`. -/
def prepareCommand (cmd : PyStr) : PyStr :=
  if ¬ pyContains [squote] cmd then wrapQuotes cmd
  else List.intercalate dquoteSep ((pySplit squote cmd).map wrapQuotes)

/-! ## The multiplexer and OS effect model

`tcmd`/`tget` issue tmux commands.  The commands smux builds are modelled
structurally (one constructor per command template appearing in the
source), carrying the target window/pane indices and payloads instead of
the rendered command string. -/

/-- tmux commands issued through `tcmd`/`tget`, one constructor per call
site in src/smux.py. -/
inductive Tcmd where
  /-- `new-session -d -x .. -y ..` (create, line 457). -/
  | newSession : Tcmd
  /-- `new-window` (newWindow, line 164). -/
  | newWindow : Tcmd
  /-- `split-window -d -h` (splitWindow, line 155). -/
  | splitWindow : Tcmd
  /-- `select-layout <layout>` (carvePanes, lines 194-195). -/
  | selectLayout (layout : PyStr) : Tcmd
  /-- `paste-buffer -t =S:w.p <args>` (line 357). -/
  | pasteBuffer (window pane : Int) (args : List PyStr) : Tcmd
  /-- `send-keys -t =S:w.p <args>` — symbolic keys (line 365). -/
  | sendKeysArgs (window pane : Int) (args : List PyStr) : Tcmd
  /-- `send-keys -t =S:w.p -l <escaped>` — literal text (line 385). -/
  | sendKeysLiteral (window pane : Int) (payload : PyStr) : Tcmd
  /-- `send-keys -t =S:w.p Enter` (line 386). -/
  | sendKeysEnter (window pane : Int) : Tcmd
  /-- `attach-session` (line 511). -/
  | attachSession : Tcmd
deriving DecidableEq

/-- The window an issued tmux command explicitly targets, if any. -/
def Tcmd.targetWindow : Tcmd → Option Int
  | .pasteBuffer w _ _ => some w
  | .sendKeysArgs w _ _ => some w
  | .sendKeysLiteral w _ _ => some w
  | .sendKeysEnter w _ => some w
  | _ => none

/-- Non-tmux side effects (prints, sleeps, shell executions, the stty size
query and the no-create self re-dispatch). -/
inductive OsEff where
  /-- `print(..)` of a fixed message. -/
  | print (msg : String) : OsEff
  /-- `print(i)` of the pane counter in the create loop (line 484). -/
  | printNum (i : Nat) : OsEff
  /-- `time.sleep(..)` pacing delays (lines 348, 437) — durations are
  timing, not modelled. -/
  | sleep : OsEff
  /-- `time.sleep(float(args[1]))` of the sleep directive (line 367),
  carrying the raw duration argument. -/
  | sleepFor (arg : PyStr) : OsEff
  /-- `os.system(fullCommand)` of the shell directive (line 374): a fresh
  `/bin/sh` process running the given command line. -/
  | shellExec (cmd : PyStr) : OsEff
  /-- The blocking poll loop of waitForString/waitForRegex (modelled in
  detail by `waitForStringOrRegex` below; within `sendCommand` the loop is
  recorded as one effect and assumed to eventually return, since the pane
  contents it polls are external input). -/
  | waitLoop (isRegex : Bool) (args : List PyStr) (window pane : Int) : OsEff
  /-- `os.popen('stty size')` (line 456). -/
  | sttyQuery : OsEff
  /-- The no-create re-dispatch of the process (line 462). -/
  | redispatch (callerWindow callerPane : Int) : OsEff
deriving DecidableEq

/-- The process/session state: the global pane counter, the pane count of
each window of the session (indexed by tmux window index; windows are never
closed, so `new-window` always picks index `windows.length`), the current
window index, the issued tmux commands, the other side effects, and a
pending Python exception (`none` = no exception; once an exception is
raised every later operation is inert, modelling propagation). -/
structure St where
  totalPanes : Nat
  windows : List Nat
  current : Nat
  trace : List Tcmd
  os : List OsEff
  err : Option String
deriving DecidableEq

/-- `MAX_PANES` (line 120). -/
def MAX_PANES : Nat := 500

/-- Issue a tmux command (the `tcmd` helper, line 126): record it. -/
def tcmdEff (t : Tcmd) (st : St) : St :=
  if st.err.isSome then st else { st with trace := st.trace ++ [t] }

/-- Record a non-tmux effect. -/
def osEff (e : OsEff) (st : St) : St :=
  if st.err.isSome then st else { st with os := st.os ++ [e] }

/-- Raise a Python exception. -/
def raiseErr (msg : String) (st : St) : St :=
  if st.err.isSome then st else { st with err := some msg }

/-- `splitWindow` (lines 150-156): under the cap, split the current window
horizontally and count it. -/
def splitWindow (st : St) : St :=
  if st.err.isSome then st
  else if st.totalPanes < MAX_PANES then
    { st with
      trace := st.trace ++ [.splitWindow]
      windows := st.windows.set st.current (st.windows.getD st.current 0 + 1)
      totalPanes := st.totalPanes + 1 }
  else st

/-- `newWindow` (lines 159-165): under the cap, create a new window (tmux
picks the first free index, which is `windows.length` here) and make it
current. -/
def newWindow (st : St) : St :=
  if st.err.isSome then st
  else if st.totalPanes < MAX_PANES then
    { st with
      trace := st.trace ++ [.newWindow]
      windows := st.windows ++ [1]
      current := st.windows.length
      totalPanes := st.totalPanes + 1 }
  else st

/-- `new-session` in `create` (line 457): a fresh session with one window
holding one pane; the state now tracks that session. -/
def newSessionEff (st : St) : St :=
  if st.err.isSome then st
  else { st with trace := st.trace ++ [.newSession], windows := [1], current := 0 }

/-- `carvePanes` (lines 178-196): split the current window `numPanes - 1`
times, re-applying the layout after each split and once more at the end;
return the current window index (`getCurrentWindow`). -/
def carvePanes (numPanes : Int) (layout : PyStr) (st : St) : St × Nat :=
  let st := (List.range (numPanes - 1).toNat).foldl
    (fun s _ => tcmdEff (.selectLayout layout) (splitWindow s)) st
  let st := tcmdEff (.selectLayout layout) st
  (st, st.current)

/-! ## sendCommand (src/smux.py lines 315-386) -/

/-- Resolution of the window argument (lines 349-350):
`if not window: window = getCurrentWindow()` — both `None` and `0` are
falsy in Python, so both are replaced by the ambient current window. -/
def resolveWindow (window : Option Int) (st : St) : Int :=
  match window with
  | none => (st.current : Int)
  | some w => if w = 0 then (st.current : Int) else w

/-- Message printed by `waitForStringOrRegex` when no argument is given
(line 222). -/
def waitNoArgMsg : String :=
  "waitForString or waitForRegex offered without mandatory argument, ignoring"

/-- The `ValueError`s that `waitForStringOrRegex` can raise while parsing
its optional interval (`float(args[1])`) and line-count (`int(args[2])`)
arguments (lines 231-234).  Compiling the regex is delegated to Python's
`re` module, an external collaborator assumed to succeed. -/
def waitArgsErr (args : List PyStr) : Option String :=
  match args with
  | _ :: iv :: more =>
    if ¬ pyFloatOk iv then some "ValueError: float" else
      match more with
      | nl :: _ => if (pyIntParse nl).isNone then some "ValueError: int" else none
      | [] => none
  | _ => none

/-- The word `shell` searched by `cmd.index("shell")` (line 373). -/
def shellWord : PyStr := ('s' :: 'h' :: 'e' :: 'l' :: 'l' :: [])

/-- The environment preamble of the shell directive (lines 372-373):
`export session_name={S}; export window={W}; export pane={P}; `. -/
def exportPreamble (sess : PyStr) (window pane : Int) : PyStr :=
  ("export session_name=").toList ++ sess
    ++ ("; export window=").toList ++ pyRepr window
    ++ ("; export pane=").toList ++ pyRepr pane
    ++ ("; ").toList

/-- The effects of one `sendCommand` call (lines 315-386), as a pure
function of the command line, target pane and the already-resolved window:
the tmux commands issued, the other effects, and a raised exception if
any.  `time.sleep(0.1)` (line 348) is the leading `.sleep`. -/
def sendCommandEffects (sess : PyStr) (cmd : PyStr) (pane : Int) (window : Int) :
    List Tcmd × List OsEff × Option String :=
  let sl : List OsEff := [.sleep]
  if pyStartsWith smuxTag cmd then
    match shlexSplit cmd with
    | none => ([], sl, some "ValueError: shlex")
    | some toks =>
      match toks.drop 1 with
      | [] => ([], sl, some "IndexError: args[0]")
      | a0 :: rest =>
        if a0 = ("paste-buffer").toList then
          ([.pasteBuffer window pane rest], sl, none)
        else if a0 = ("send-keys").toList then
          ([.sendKeysArgs window pane rest], sl, none)
        else if a0 = ("sleep").toList then
          match rest with
          | [] => ([], sl, some "IndexError: args[1]")
          | d :: _ =>
            if pyFloatOk d then ([], sl ++ [.sleepFor d], none)
            else ([], sl, some "ValueError: float")
        else if a0 = shellWord then
          match pyFind shellWord cmd with
          | none => ([], sl, some "ValueError: substring not found")
          | some ix =>
            ([], sl ++ [.shellExec (exportPreamble sess window pane ++ cmd.drop (ix + 5))], none)
        else if a0 = ("waitForString").toList ∨ a0 = ("waitForRegex").toList then
          let isRegex := a0 = ("waitForRegex").toList
          match rest with
          | [] => ([], sl ++ [.print waitNoArgMsg], none)
          | _ :: _ =>
            match waitArgsErr rest with
            | some e => ([], sl, some e)
            | none => ([], sl ++ [.waitLoop isRegex rest window pane], none)
        else
          -- An unrecognized directive falls through every branch and the
          -- function just returns (line 383).
          ([], sl, none)
  else
    ([.sendKeysLiteral window pane (prepareCommand cmd), .sendKeysEnter window pane], sl, none)

/-- `sendCommand` (lines 315-386) acting on the state. -/
def sendCommand (sess : PyStr) (cmd : PyStr) (pane : Int) (window : Option Int) (st : St) : St :=
  if st.err.isSome then st
  else
    let w := resolveWindow window st
    let r := sendCommandEffects sess cmd pane w
    { st with trace := st.trace ++ r.1, os := st.os ++ r.2.1, err := r.2.2 }

/-- `create.sendCommandList` (lines 427-439): a settling sleep, then each
command of the list in order against the given coordinate. -/
def sendCommandList (sess : PyStr) (commandList : List PyStr) (window : Int) (pane : Int)
    (st : St) : St :=
  let st := osEff .sleep st
  commandList.foldl (fun s c => sendCommand sess c pane (some window) s) st

/-! ## waitForStringOrRegex (src/smux.py lines 199-250)

The poll loop reads the target pane's screen through
`tmux capture-pane -p`; those successive capture outputs are external
input, supplied to the model as a list `captures` (one entry per poll).
If no capture in the list matchQ, the real loop would keep polling:
the model reports `returned = false` after consuming them all.
The `re` module is external: the model takes the compiled pattern's
`search` as an opaque boolean function `regexSearch`. -/

/-- Outcome of running the wait loop against a finite prefix of the pane's
capture history. -/
structure WaitOutcome where
  /-- Messages printed. -/
  msgs : List String
  /-- Number of sleep-and-capture cycles performed. -/
  polls : Nat
  /-- The haystack text each poll matched against, in order. -/
  haystacks : List PyStr
  /-- Did the call return (match found, or no-argument early return)? -/
  returned : Bool
  /-- Exception raised while parsing the optional arguments. -/
  err : Option String
deriving DecidableEq

/-- The text one poll matchQ against (lines 239-243): strip the capture,
split it on newlines, take the Python slice `[-numLines:]` and join with
no separator. -/
def pollHaystack (numLines : Int) (capture : PyStr) : PyStr :=
  (pySliceFrom (-numLines) (pySplit '\n' (pyStrip capture))).flatten

/-- The poll loop (lines 235-249) over the given capture history. -/
def waitPollLoop (matchQ : PyStr → Bool) (numLines : Int) :
    List PyStr → Nat → List PyStr → Nat × List PyStr × Bool
  | [], polls, hs => (polls, hs, false)
  | c :: cs, polls, hs =>
    let h := pollHaystack numLines c
    if matchQ h then (polls + 1, hs ++ [h], true)
    else waitPollLoop matchQ numLines cs (polls + 1) (hs ++ [h])

/-- The number of lines to capture (lines 230, 233-234): `int(args[2])`
when given, else 1. -/
def waitNumLines (args : List PyStr) : Int :=
  match args.get? 2 with
  | some nl => (pyIntParse nl).getD 1
  | none => 1

/-- The per-poll match test (lines 245-249): `regexNeedle.search(haystack)`
for a regex, `needle in haystack` for a literal string. -/
def waitMatch (regexSearch : PyStr → PyStr → Bool) (isRegex : Bool) (needle h : PyStr) : Bool :=
  if isRegex then regexSearch needle h else pyContains needle h

/-- `waitForStringOrRegex` (lines 199-249). -/
def waitForStringOrRegex (regexSearch : PyStr → PyStr → Bool) (captures : List PyStr)
    (args : List PyStr) (isRegex : Bool) : WaitOutcome :=
  match args with
  | [] => ⟨[waitNoArgMsg], 0, [], true, none⟩
  | needle :: _ =>
    match waitArgsErr args with
    | some e => ⟨[], 0, [], false, some e⟩
    | none =>
      let r := waitPollLoop (waitMatch regexSearch isRegex needle) (waitNumLines args)
        captures 0 []
      ⟨[], r.1, r.2.1, r.2.2, none⟩

/-! ## create (src/smux.py lines 397-511) -/

/-- Usage error for a non-positive pane count (line 448). -/
def noPanesMsg : String := "No panes specified."

/-- Usage error for more than 30 panes per window (line 451). -/
def tooManyMsg : String := "Number per window must be less than 30!"

/-- Warning when `noCreate` is ignored (line 454). -/
def noCreateWarnMsg : String :=
  "noCreate parameter ignored because we are not in a tmux session or len(commands) != 1"

/-- The `while panesNeeded > 0` loop of `create` (lines 478-500).  Python's
loop terminates because `panesNeeded` falls by `numPanesPerWindow ≥ 1` each
round; Lean gets the same bound through `fuel` (instantiated with the
number of command lists, an upper bound on the number of rounds).
Besides the final state it returns, for each command list in order, the
`(window, pane)` coordinate its commands were dispatched to. -/
def createLoop (sess : PyStr) (numPanesPerWindow : Int) (layout : PyStr) :
    Nat → Int → List (List PyStr) → St → St × List (Nat × Nat)
  | 0, _, _, st => (st, [])
  | fuel + 1, panesNeeded, commands, st =>
    if panesNeeded > 0 then
      let c := carvePanes numPanesPerWindow layout st
      let windowNum := c.2
      let k := (min numPanesPerWindow (commands.length : Int)).toNat
      -- `for i in range(min(numPanesPerWindow, len(commands)))` (line 483):
      -- print(i), then dispatch the i-th command list to pane i.
      let st := (List.range k).foldl
        (fun s i => sendCommandList sess (commands.getD i []) (windowNum : Int) (i : Int)
          (osEff (.printNum i) s)) c.1
      -- pop the dispatched command lists (line 496)
      let commands2 := commands.drop k
      let panesNeeded2 := panesNeeded - numPanesPerWindow
      let st := if panesNeeded2 > 0 then newWindow st else st
      let r := createLoop sess numPanesPerWindow layout fuel panesNeeded2 commands2 st
      (r.1, (List.range k).map (fun i => (windowNum, i)) ++ r.2)
    else (st, [])

/-- `create` (lines 397-511).  Environment inputs that Python reads from
globals or the OS are explicit parameters: `sess` the session name, `tmux`
whether the process started inside a tmux session, `subshellEnv` the
`SMUX_SUBSHELL` marker, `callerWindow`/`callerPane` the coordinates
captured at import.  `executeAfterCreate` is the caller's callback.
Threaded dispatch (`useThreads`) starts one worker per pane running the
same `sendCommandList` calls; the model serializes them in spawn order
(the only schedule a deterministic function can record), which leaves the
layout work — all done on the coordinating thread — unchanged. -/
def create (sess : PyStr) (tmux : Bool) (subshellEnv : Bool) (callerWindow callerPane : Int)
    (numPanesPerWindow : Int) (commands : List (List PyStr)) (layout : PyStr)
    (executeAfterCreate : Option (St → St)) (noCreate : Bool) (useThreads : Bool)
    (st : St) : St × List (Nat × Nat) :=
  let commands := commands.map digestCommands
  if ¬ numPanesPerWindow > 0 then (osEff (.print noPanesMsg) st, [])
  else if numPanesPerWindow > 30 then (osEff (.print tooManyMsg) st, [])
  else
    let st := if noCreate ∧ (¬ tmux ∨ commands.length ≠ 1) then
      osEff (.print noCreateWarnMsg) st else st
    if ¬ tmux then
      -- A new session starts with one window; the first loop round carves
      -- that window directly (no `newWindow()` on this path).
      let st := osEff .sttyQuery st
      let st := newSessionEff st
      let r := createLoop sess numPanesPerWindow layout
        commands.length (commands.length : Int) commands st
      -- threads are joined, then the callback, then `attach-session`
      let st := (executeAfterCreate.getD id) r.1
      (tcmdEff .attachSession st, r.2)
    else if noCreate ∧ commands.length = 1 then
      if ¬ subshellEnv then (osEff (.redispatch callerWindow callerPane) st, [])
      else (sendCommandList sess (commands.getD 0 []) callerWindow callerPane st, [])
    else
      let r := createLoop sess numPanesPerWindow layout
        commands.length (commands.length : Int) commands (newWindow st)
      let st := (executeAfterCreate.getD id) r.1
      (st, r.2)

/-- The state of a fresh process: no session yet, counter at zero. -/
def initialState : St := ⟨0, [], 0, [], [], none⟩

/-- A `create` call from a fresh process that is not inside tmux, with the
default optional arguments (`executeAfterCreate=None`, `noCreate=False`,
`useThreads=False`) — the ordinary orchestration entry. -/
def createFresh (sess : PyStr) (numPanesPerWindow : Int) (commands : List (List PyStr))
    (layout : PyStr) : St × List (Nat × Nat) :=
  create sess false false 0 0 numPanesPerWindow commands layout none false false initialState

/-! ## Basic lemmas about the string model -/

theorem pySplit_eq_splitOn (sep : Char) (s : PyStr) : pySplit sep s = s.splitOn sep := by
  induction s with
  | nil => rfl
  | cons c cs ih =>
    rw [pySplit, List.splitOn, List.splitOnP_cons]
    by_cases h : c = sep
    · rw [if_pos h, if_pos (by simpa using h), ih]
      rfl
    · have hne : cs.splitOn sep ≠ [] := List.splitOnP_ne_nil _ cs
      rw [if_neg h, if_neg (by simpa using h), ih]
      rcases hm : List.splitOn sep cs with _ | ⟨g, gs⟩
      · exact absurd hm hne
      · rw [List.splitOn] at hm
        simp [List.splitOn, hm]

theorem pyContains_single (c : Char) (s : PyStr) : pyContains [c] s = true ↔ c ∈ s := by
  induction s with
  | nil => simp [pyContains, pyFind]
  | cons a as ih =>
    simp only [pyContains, pyFind]
    by_cases h : c = a
    · simp [List.isPrefixOf, h]
    · have hpre : [c].isPrefixOf (a :: as) = false := by
        simp [List.isPrefixOf, Ne.symm, h]
      rw [hpre]
      simp only [Bool.false_eq_true, if_false, Option.isSome_map]
      simp only [pyContains] at ih
      simp [ih, List.mem_cons, h]

theorem pySplit_of_not_mem {sep : Char} {s : PyStr} (h : sep ∉ s) : pySplit sep s = [s] := by
  rw [pySplit_eq_splitOn, List.splitOn, List.splitOnP_eq_single]
  intro x hx
  simp only [beq_iff_eq]
  exact fun he => h (he ▸ hx)

/-! ## Claim C4 — the quoting function -/

/-- Claim C4: a string with no single quote is returned wrapped in exactly
one pair of single quotes; in general the result alternates single-quoted
segments (the split of the input on single quotes) with a double-quoted
single-quote, and re-joining those segments on single quotes reconstructs
the original string exactly. -/
theorem prepareCommand_roundtrip (s : PyStr) :
    prepareCommand s = List.intercalate dquoteSep ((pySplit squote s).map wrapQuotes)
    ∧ List.intercalate [squote] (pySplit squote s) = s
    ∧ (¬ pyContains [squote] s = true → prepareCommand s = wrapQuotes s) := by
  refine ⟨?_, ?_, ?_⟩
  · by_cases hq : pyContains [squote] s = true
    · rw [prepareCommand, if_neg (by simpa using hq)]
    · have hmem : squote ∉ s := fun hm => hq ((pyContains_single _ _).mpr hm)
      rw [prepareCommand, if_pos (by simpa using hq), pySplit_of_not_mem hmem]
      simp [List.intercalate]
  · rw [pySplit_eq_splitOn]
    exact List.intercalate_splitOn s squote
  · intro hq
    rw [prepareCommand, if_pos (by simpa using hq)]

/-- Witness for C4 at the concrete inputs `It's` and `ab`. -/
theorem prepareCommand_roundtrip_witness :
    List.intercalate [squote] (pySplit squote ('I' :: 't' :: squote :: 's' :: []))
        = ('I' :: 't' :: squote :: 's' :: [])
    ∧ prepareCommand ('a' :: 'b' :: []) = wrapQuotes ('a' :: 'b' :: []) :=
  ⟨(prepareCommand_roundtrip _).2.1,
   (prepareCommand_roundtrip _).2.2 (by decide)⟩

/-! ## Claim C5 — continuation joining in digestCommands -/

/-- Claim C5: a directive line (prefix `#smux `) ending in the continuation
marker, followed by a surviving non-continuing line, digests to the single
joined line with the marker removed and the contents concatenated; a
surviving raw (non-directive) line is always emitted unchanged, never
joined with the following line. -/
theorem digestCommands_continuation :
    (∀ l1 l2 rest, pyStartsWith smuxTag l1 = true → pyEndsWith bslash l1 = true →
      keepLine l2 = true → ¬ pyEndsWith bslash l2 = true →
      digestCommands (l1 :: l2 :: rest) = (l1.dropLast ++ l2) :: digestCommands rest)
    ∧ (∀ m rest, keepLine m = true → ¬ pyStartsWith smuxTag m = true →
      digestCommands (m :: rest) = m :: digestCommands rest) := by
  constructor
  · intro l1 l2 rest h1p h1e h2k h2e
    have h1ne : l1 ≠ [] := by
      intro h
      rw [h] at h1p
      exact absurd h1p (by decide)
    have h1k : keepLine l1 = true := by
      simp [keepLine, h1ne, h1p]
    have h2ne : l2 ≠ [] := by
      intro h
      rw [h] at h2k
      exact absurd h2k (by decide)
    rw [digestCommands, List.filter_cons_of_pos h1k, List.filter_cons_of_pos h2k,
      digestLoop, if_pos (by simp [h1p, h1e]), digestLoop]
    have hejoin : pyEndsWith bslash (l1.dropLast ++ l2) = false := by
      rw [pyEndsWith, List.getLast?_append_of_ne_nil _ h2ne]
      simpa [pyEndsWith] using h2e
    rw [hejoin]
    simp [digestCommands]
  · intro m rest hk hns
    rw [digestCommands, List.filter_cons_of_pos hk, digestLoop,
      if_neg (by simp [hns]), ← digestCommands]

/-- Witness for C5: the directive pair
(`#smux shell echo \`, `hello`) joins; the raw line `echo a \` passes
through unchanged. -/
theorem digestCommands_continuation_witness :
    digestCommands (("#smux shell echo \\").toList :: ("hello").toList :: []) =
      ((("#smux shell echo \\").toList.dropLast ++ ("hello").toList) :: digestCommands [])
    ∧ digestCommands (("echo a \\").toList :: ("next").toList :: []) =
      ("echo a \\").toList :: digestCommands [("next").toList] :=
  ⟨digestCommands_continuation.1 _ _ _ (by decide) (by decide) (by decide) (by decide),
   digestCommands_continuation.2 _ _ (by decide) (by decide)⟩

/-! ## Claim C8 — wait directive with no argument -/

/-- Claim C8: a wait directive invoked with an empty argument vector
reports a message and is a no-op — it returns at once, performing zero
polls (so it captures no pane text, issues no multiplexer command and
never blocks). -/
theorem waitForStringOrRegex_noArg (regexSearch : PyStr → PyStr → Bool)
    (captures : List PyStr) (isRegex : Bool) :
    waitForStringOrRegex regexSearch captures [] isRegex =
      ⟨[waitNoArgMsg], 0, [], true, none⟩ := rfl

/-! ## Claim C6 — the wait poll loop -/

/-- Closed form of the poll loop: it stops right after the first capture
whose haystack matches, having examined one haystack per poll; with no
matching capture it consumes them all and is still waiting. -/
theorem waitPollLoop_spec (mq : PyStr → Bool) (n : Int) :
    ∀ (caps : List PyStr) (polls : Nat) (hs : List PyStr),
      waitPollLoop mq n caps polls hs =
        match caps.findIdx? (fun c => mq (pollHaystack n c)) with
        | some k => (polls + k + 1, hs ++ ((caps.take (k + 1)).map (pollHaystack n)), true)
        | none => (polls + caps.length, hs ++ caps.map (pollHaystack n), false)
  | [], polls, hs => by simp [waitPollLoop]
  | c :: cs, polls, hs => by
    rw [waitPollLoop]
    by_cases h : mq (pollHaystack n c)
    · simp [h]
    · simp only [h, Bool.false_eq_true, if_false]
      rw [waitPollLoop_spec mq n cs (polls + 1) (hs ++ [pollHaystack n c])]
      rw [List.findIdx?_cons, if_neg (by simpa using h), List.findIdx?_succ]
      cases hf : cs.findIdx? (fun c => mq (pollHaystack n c)) with
      | none =>
        simp only [hf, Option.map_none', List.length_cons, List.map_cons, Prod.mk.injEq]
        refine ⟨by omega, by simp, trivial⟩
      | some k =>
        simp only [hf, Option.map_some', List.take_succ_cons, List.map_cons, Prod.mk.injEq]
        refine ⟨by omega, by simp, trivial⟩

/-- The claimed haystack, modelled from the claim's words for comparison:
"the last `lines` displayed lines of the target pane concatenated with no
separator".  `capture-pane -p` renders the displayed lines joined by
newlines with one trailing newline, so the displayed lines are the split
of the capture with that final newline removed. -/
def claimedHaystack (numLines : Int) (capture : PyStr) : PyStr :=
  let displayed := pySplit '\n' (if pyEndsWith '\n' capture then capture.dropLast else capture)
  (pySliceFrom (-numLines) displayed).flatten

/-- Counterexample to claim C6 as stated: the pane shows `needle` followed
by a blank line, so the last one displayed line is blank and the claimed
haystack is empty — yet `waitForString needle` returns on the first poll,
because the code strips the whole capture before splitting (line 242) and
therefore matches against `needle`.  Hence the matched text is not the last
displayed line, and the call returns without the needle occurring in it. -/
theorem waitForStringOrRegex_lastLines_cex :
    (waitForStringOrRegex (fun _ _ => false) [("needle\n\n").toList]
        [("needle").toList] false).returned = true
    ∧ (waitForStringOrRegex (fun _ _ => false) [("needle\n\n").toList]
        [("needle").toList] false).polls = 1
    ∧ pyContains (("needle").toList) (claimedHaystack 1 (("needle\n\n").toList)) = false := by
  refine ⟨by decide, by decide, by decide⟩

/-- Claim C6 as amended: for a wait directive with a needle and
well-formed optional arguments, each poll matches against
`pollHaystack` — the concatenation, with no separator, of the last
`lines` elements (default 1; a value of 0 selects all lines) of the
whitespace-stripped capture split on newlines — and the call returns
exactly when some capture's haystack matches, right after the first such
poll, examining one haystack per poll.  (The poll period `interval` is
wall-clock timing, outside the model; its argument is validated by
`waitArgsErr`.) -/
theorem waitForStringOrRegex_spec (regexSearch : PyStr → PyStr → Bool)
    (captures : List PyStr) (needle : PyStr) (rest : List PyStr) (isRegex : Bool)
    (hargs : waitArgsErr (needle :: rest) = none) :
    (waitForStringOrRegex regexSearch captures (needle :: rest) isRegex).err = none
    ∧ (waitForStringOrRegex regexSearch captures (needle :: rest) isRegex).haystacks =
        (captures.take (waitForStringOrRegex regexSearch captures (needle :: rest) isRegex).polls).map
          (pollHaystack (waitNumLines (needle :: rest)))
    ∧ captures.findIdx?
        (fun c => waitMatch regexSearch isRegex needle
          (pollHaystack (waitNumLines (needle :: rest)) c)) =
        (if (waitForStringOrRegex regexSearch captures (needle :: rest) isRegex).returned
          then some ((waitForStringOrRegex regexSearch captures (needle :: rest) isRegex).polls - 1)
          else none)
    ∧ ((waitForStringOrRegex regexSearch captures (needle :: rest) isRegex).returned = false →
        (waitForStringOrRegex regexSearch captures (needle :: rest) isRegex).polls =
          captures.length) := by
  rw [waitForStringOrRegex]
  rw [hargs]
  rw [waitPollLoop_spec]
  cases hf : captures.findIdx?
      (fun c => waitMatch regexSearch isRegex needle
        (pollHaystack (waitNumLines (needle :: rest)) c)) with
  | none => simp
  | some k =>
    simp only
    exact ⟨trivial, by simp, by simp, by simp⟩

/-- Witness for C6 at a concrete input: needle `hi`, one capture `hi\n`. -/
theorem waitForStringOrRegex_spec_witness :
    (waitForStringOrRegex (fun _ _ => false) [("hi\n").toList] [("hi").toList] false).haystacks =
      ([("hi\n").toList].take
        (waitForStringOrRegex (fun _ _ => false) [("hi\n").toList] [("hi").toList] false).polls).map
        (pollHaystack (waitNumLines [("hi").toList])) :=
  (waitForStringOrRegex_spec (fun _ _ => false) [("hi\n").toList] ("hi").toList [] false
    (by decide)).2.1

/-! ## Claim C9 — the global pane cap -/

/-- Claim C9: at or above the cap, `splitWindow` and `newWindow` issue no
multiplexer command and leave the counter unchanged (they are complete
no-ops); below the cap each issues exactly one command and increments the
counter by exactly one; consequently the counter never exceeds
`MAX_PANES = 500`. -/
theorem paneCap_invariant (st : St) (h : st.err = none) :
    (MAX_PANES ≤ st.totalPanes → splitWindow st = st ∧ newWindow st = st)
    ∧ (st.totalPanes < MAX_PANES →
        (splitWindow st).totalPanes = st.totalPanes + 1
        ∧ (splitWindow st).trace = st.trace ++ [.splitWindow]
        ∧ (newWindow st).totalPanes = st.totalPanes + 1
        ∧ (newWindow st).trace = st.trace ++ [.newWindow])
    ∧ (st.totalPanes ≤ MAX_PANES →
        (splitWindow st).totalPanes ≤ MAX_PANES
        ∧ (newWindow st).totalPanes ≤ MAX_PANES) := by
  have he : st.err.isSome = false := by simp [h]
  refine ⟨?_, ?_, ?_⟩
  · intro hcap
    have hnl : ¬ st.totalPanes < MAX_PANES := by omega
    constructor <;> simp [splitWindow, newWindow, he, hnl]
  · intro hlt
    refine ⟨?_, ?_, ?_, ?_⟩ <;> simp [splitWindow, newWindow, he, hlt]
  · intro hle
    by_cases hlt : st.totalPanes < MAX_PANES
    · constructor <;> simp [splitWindow, newWindow, he, hlt] <;> omega
    · constructor <;> simp [splitWindow, newWindow, he, hlt] <;> exact hle

/-- Witness for C9 at a concrete state below the cap. -/
theorem paneCap_invariant_witness :
    (splitWindow ⟨0, [1], 0, [], [], none⟩).totalPanes = 0 + 1 :=
  ((paneCap_invariant ⟨0, [1], 0, [], [], none⟩ rfl).2.1 (by decide)).1

/-! ## Claim C10 — a window argument of 0 is replaced by the current window -/

/-- Every tmux command `sendCommandEffects` issues either carries no
explicit window target or targets exactly the resolved window. -/
theorem sendCommandEffects_target (sess cmd : PyStr) (pane w : Int) :
    ∀ t ∈ (sendCommandEffects sess cmd pane w).1,
      Tcmd.targetWindow t = none ∨ Tcmd.targetWindow t = some w := by
  intro t ht
  rw [sendCommandEffects] at ht
  iterate 14 (all_goals (try simp only at ht); all_goals (try split at ht))
  all_goals simp at ht
  all_goals first
    | (rcases ht with h | h <;> simp [h, Tcmd.targetWindow])
    | (rw [ht]; simp [Tcmd.targetWindow])

/-- Claim C10: `sendCommand` tests its window argument for truthiness, so
a window argument of `0` behaves exactly like an omitted window: it is
replaced by the multiplexer's ambient current window, and (whenever the
ambient window is not 0) no command issued by the call targets window 0 —
explicit delivery to window index 0 is impossible through this entry
point. -/
theorem sendCommand_windowZero (sess cmd : PyStr) (pane : Int) (st : St) :
    resolveWindow (some 0) st = (st.current : Int)
    ∧ resolveWindow none st = (st.current : Int)
    ∧ sendCommand sess cmd pane (some 0) st = sendCommand sess cmd pane none st
    ∧ ((st.current : Int) ≠ 0 →
        ∀ t ∈ (sendCommand sess cmd pane (some 0) st).trace,
          t ∈ st.trace ∨ Tcmd.targetWindow t ≠ some 0) := by
  refine ⟨rfl, rfl, rfl, ?_⟩
  intro hcur t ht
  rw [sendCommand] at ht
  by_cases he : st.err.isSome
  · rw [if_pos he] at ht
    exact Or.inl ht
  · rw [if_neg he] at ht
    simp only at ht
    rcases List.mem_append.mp ht with hold | hnew
    · exact Or.inl hold
    · right
      rcases sendCommandEffects_target sess cmd pane (resolveWindow (some 0) st) t hnew with
        h0 | h0
      · simp [h0]
      · rw [h0, resolveWindow]
        simp only [if_pos rfl]
        intro hc
        exact hcur (by simpa using hc)

/-- Witness for C10: with the current window at index 3, the literal
keystroke injection produced for a raw command sent with `window=0`
targets window 3, not window 0. -/
theorem sendCommand_windowZero_witness :
    Tcmd.targetWindow (Tcmd.sendKeysLiteral 3 2 (prepareCommand ('a' :: []))) ≠ some 0 := by
  have h := (sendCommand_windowZero ('s' :: []) ('a' :: []) 2
    ⟨0, [1, 1, 1, 1], 3, [], [], none⟩).2.2.2 (by decide)
  exact Or.resolve_left
    (h (Tcmd.sendKeysLiteral 3 2 (prepareCommand ('a' :: []))) (by decide)) (by decide)

/-! ## Claim C7 — the shell directive -/

/-- The eleven characters `#smux shell` heading a shell directive line. -/
def smuxShellHead : PyStr :=
  ('#' :: 's' :: 'm' :: 'u' :: 'x' :: ' ' :: 's' :: 'h' :: 'e' :: 'l' :: 'l' :: [])

/-- On any line headed by `#smux shell`, the first occurrence of the word
`shell` starts at index 6, whatever follows the head. -/
theorem pyFind_shellWord (rest : PyStr) :
    pyFind shellWord (smuxShellHead ++ rest) = some 6 := by
  simp only [smuxShellHead, shellWord, List.cons_append]
  rw [pyFind, if_neg (by simp [List.isPrefixOf])]
  rw [pyFind, if_neg (by simp [List.isPrefixOf])]
  rw [pyFind, if_neg (by simp [List.isPrefixOf])]
  rw [pyFind, if_neg (by simp [List.isPrefixOf])]
  rw [pyFind, if_neg (by simp [List.isPrefixOf])]
  rw [pyFind, if_neg (by simp [List.isPrefixOf])]
  rw [pyFind, if_pos (by simp [List.isPrefixOf_iff_prefix])]
  rfl

/-- Claim C7: a digested `#smux shell` line (whose second shlex token is
the word `shell`) executes, through the host shell in a fresh process, the
literal remainder of the original line after the directive name — the raw
substring, not a re-tokenization — prefixed by exports of exactly three
variables: the session name, the window index and the pane index.  It
issues no multiplexer command. -/
theorem sendCommand_shell (sess rest : PyStr) (pane : Int) (window : Option Int) (st : St)
    (t0 : PyStr) (more : List PyStr)
    (hst : st.err = none)
    (htok : shlexSplit (smuxShellHead ++ rest) = some (t0 :: shellWord :: more)) :
    sendCommand sess (smuxShellHead ++ rest) pane window st =
      { st with
        os := st.os ++ [OsEff.sleep,
          OsEff.shellExec (exportPreamble sess (resolveWindow window st) pane ++ rest)],
        err := none } := by
  have hpre : pyStartsWith smuxTag (smuxShellHead ++ rest) = true := by
    rw [smuxShellHead, smuxTag, pyStartsWith]
    simp [List.isPrefixOf]
  have hdrop : (smuxShellHead ++ rest).drop (6 + 5) = rest := by
    have h11 : 6 + 5 = smuxShellHead.length := by decide
    rw [h11, List.drop_left]
  have heff : sendCommandEffects sess (smuxShellHead ++ rest) pane (resolveWindow window st) =
      ([], [OsEff.sleep,
        OsEff.shellExec (exportPreamble sess (resolveWindow window st) pane ++ rest)], none) := by
    rw [sendCommandEffects, if_pos hpre, htok]
    simp only [List.drop_succ_cons, List.drop_zero]
    rw [if_neg (by decide), if_neg (by decide), if_neg (by decide)]
    simp [pyFind_shellWord, hdrop]
  rw [sendCommand, if_neg (by simp [hst])]
  simp only [heff]
  simp [hst]

/-- Witness for C7: `#smux shell echo hi` from a fresh state with an
explicit window argument 5 and pane 2. -/
theorem sendCommand_shell_witness :
    sendCommand ('s' :: []) (smuxShellHead ++ (" echo hi").toList) 2 (some 5) initialState =
      { initialState with
        os := initialState.os ++ [OsEff.sleep,
          OsEff.shellExec (exportPreamble ('s' :: []) (resolveWindow (some 5) initialState) 2 ++
            (" echo hi").toList)],
        err := none } :=
  sendCommand_shell ('s' :: []) (" echo hi").toList 2 (some 5) initialState
    (("#smux").toList) [("echo").toList, ("hi").toList] rfl (by decide)

/-! ## Claim C3 — usage errors abort before any multiplexer mutation -/

/-- Claim C3: for `panesPerWindow ≤ 0` or `> 30`, `create` prints the
usage error and returns at once: the tmux trace, the window table, the
pane counter and every other state component are untouched (the one
recorded effect is the printed message), and no coordinates are
assigned. -/
theorem create_usageError (sess : PyStr) (tmux subshellEnv : Bool) (cw cp : Int)
    (numPanesPerWindow : Int) (commands : List (List PyStr)) (layout : PyStr)
    (execAfter : Option (St → St)) (noCreate useThreads : Bool) (st : St)
    (hst : st.err = none) :
    (numPanesPerWindow ≤ 0 →
      create sess tmux subshellEnv cw cp numPanesPerWindow commands layout
          execAfter noCreate useThreads st =
        ({ st with os := st.os ++ [.print noPanesMsg] }, []))
    ∧ (numPanesPerWindow > 30 →
      create sess tmux subshellEnv cw cp numPanesPerWindow commands layout
          execAfter noCreate useThreads st =
        ({ st with os := st.os ++ [.print tooManyMsg] }, [])) := by
  constructor
  · intro hle
    rw [create, if_pos (by omega)]
    rw [osEff, if_neg (by simp [hst])]
  · intro hgt
    rw [create, if_neg (by omega), if_pos hgt]
    rw [osEff, if_neg (by simp [hst])]

/-- Witness for C3 at `panesPerWindow = 0` and `31`. -/
theorem create_usageError_witness :
    create ('s' :: []) false false 0 0 0 [[('a' :: [])]] ('t' :: []) none false false
        initialState =
      ({ initialState with os := initialState.os ++ [.print noPanesMsg] }, [])
    ∧ create ('s' :: []) false false 0 0 31 [[('a' :: [])]] ('t' :: []) none false false
        initialState =
      ({ initialState with os := initialState.os ++ [.print tooManyMsg] }, []) :=
  ⟨(create_usageError _ _ _ _ _ _ _ _ _ _ _ _ rfl).1 (by decide),
   (create_usageError _ _ _ _ _ _ _ _ _ _ _ _ rfl).2 (by decide)⟩

/-! ## State-field preservation and error-frozen lemmas

`sendCommand` and the other dispatch operations never touch the window
table, the current window or the pane counter; and once an exception is
pending every operation is inert.  These facts drive the `create` loop
analysis. -/

theorem osEff_fields (e : OsEff) (st : St) :
    (osEff e st).windows = st.windows ∧ (osEff e st).current = st.current
    ∧ (osEff e st).totalPanes = st.totalPanes ∧ (osEff e st).err = st.err := by
  rw [osEff]
  split <;> exact ⟨rfl, rfl, rfl, rfl⟩

theorem tcmdEff_fields (t : Tcmd) (st : St) :
    (tcmdEff t st).windows = st.windows ∧ (tcmdEff t st).current = st.current
    ∧ (tcmdEff t st).totalPanes = st.totalPanes ∧ (tcmdEff t st).err = st.err := by
  rw [tcmdEff]
  split <;> exact ⟨rfl, rfl, rfl, rfl⟩

theorem sendCommand_fields (sess cmd : PyStr) (pane : Int) (window : Option Int) (st : St) :
    (sendCommand sess cmd pane window st).windows = st.windows
    ∧ (sendCommand sess cmd pane window st).current = st.current
    ∧ (sendCommand sess cmd pane window st).totalPanes = st.totalPanes := by
  rw [sendCommand]
  split <;> exact ⟨rfl, rfl, rfl⟩

/-- A left fold of operations that preserve the window table, the current
window and the pane counter preserves them. -/
theorem foldl_fields {α : Type} (f : St → α → St)
    (hf : ∀ s a, (f s a).windows = s.windows ∧ (f s a).current = s.current
      ∧ (f s a).totalPanes = s.totalPanes) :
    ∀ (l : List α) (st : St),
      (l.foldl f st).windows = st.windows ∧ (l.foldl f st).current = st.current
      ∧ (l.foldl f st).totalPanes = st.totalPanes
  | [], st => ⟨rfl, rfl, rfl⟩
  | a :: l, st => by
    simp only [List.foldl_cons]
    obtain ⟨h1, h2, h3⟩ := foldl_fields f hf l (f st a)
    obtain ⟨g1, g2, g3⟩ := hf st a
    exact ⟨h1.trans g1, h2.trans g2, h3.trans g3⟩

theorem sendCommandList_fields (sess : PyStr) (cmds : List PyStr) (w p : Int) (st : St) :
    (sendCommandList sess cmds w p st).windows = st.windows
    ∧ (sendCommandList sess cmds w p st).current = st.current
    ∧ (sendCommandList sess cmds w p st).totalPanes = st.totalPanes := by
  rw [sendCommandList]
  obtain ⟨h1, h2, h3⟩ := foldl_fields (fun s c => sendCommand sess c p (some w) s)
    (fun s c => sendCommand_fields sess c p (some w) s) cmds (osEff .sleep st)
  obtain ⟨g1, g2, g3, _⟩ := osEff_fields .sleep st
  exact ⟨h1.trans g1, h2.trans g2, h3.trans g3⟩

/-- A state with a pending exception is a fixed point of every operation. -/
theorem frozen_ops (st : St) (h : st.err.isSome = true) :
    (∀ e, osEff e st = st) ∧ (∀ t, tcmdEff t st = st)
    ∧ splitWindow st = st ∧ newWindow st = st
    ∧ (∀ sess cmd pane window, sendCommand sess cmd pane window st = st) := by
  refine ⟨fun e => by rw [osEff, if_pos h], fun t => by rw [tcmdEff, if_pos h],
    by rw [splitWindow, if_pos h], by rw [newWindow, if_pos h],
    fun sess cmd pane window => by rw [sendCommand, if_pos h]⟩

/-- A left fold of operations that fix erroneous states fixes them. -/
theorem foldl_frozen {α : Type} (f : St → α → St)
    (hf : ∀ s a, s.err.isSome = true → f s a = s) :
    ∀ (l : List α) (st : St), st.err.isSome = true → l.foldl f st = st
  | [], _, _ => rfl
  | a :: l, st, h => by
    simp only [List.foldl_cons, hf st a h]
    exact foldl_frozen f hf l st h

theorem sendCommandList_frozen (sess : PyStr) (cmds : List PyStr) (w p : Int) (st : St)
    (h : st.err.isSome = true) : sendCommandList sess cmds w p st = st := by
  rw [sendCommandList, (frozen_ops st h).1]
  exact foldl_frozen _ (fun s c hs => (frozen_ops s hs).2.2.2.2 sess c p (some w)) cmds st h

theorem carvePanes_frozen (P : Int) (layout : PyStr) (st : St) (h : st.err.isSome = true) :
    carvePanes P layout st = (st, st.current) := by
  rw [carvePanes]
  have hfold : (List.range (P - 1).toNat).foldl
      (fun s _ => tcmdEff (.selectLayout layout) (splitWindow s)) st = st :=
    foldl_frozen _ (fun s _ hs => by
      rw [(frozen_ops s hs).2.2.1, (frozen_ops s hs).2.1]) _ st h
  simp only [hfold, (frozen_ops st h).2.1]

theorem newWindow_frozen (st : St) (h : st.err.isSome = true) : newWindow st = st :=
  (frozen_ops st h).2.2.2.1

theorem createLoop_frozen (sess : PyStr) (P : Int) (layout : PyStr) :
    ∀ (fuel : Nat) (pn : Int) (cmds : List (List PyStr)) (st : St),
      st.err.isSome = true → (createLoop sess P layout fuel pn cmds st).1 = st
  | 0, _, _, _, _ => rfl
  | fuel + 1, pn, cmds, st, h => by
    rw [createLoop]
    by_cases hpn : pn > 0
    · rw [if_pos hpn]
      simp only [carvePanes_frozen P layout st h]
      have hgroup : (List.range (min P (cmds.length : Int)).toNat).foldl
          (fun s i => sendCommandList sess (cmds.getD i []) (st.current : Int) (i : Int)
            (osEff (.printNum i) s)) st = st :=
        foldl_frozen _ (fun s i hs => by
          rw [(frozen_ops s hs).1, sendCommandList_frozen _ _ _ _ s hs]) _ st h
      simp only [hgroup]
      by_cases hpn2 : pn - P > 0
      · rw [if_pos hpn2, createLoop_frozen sess P layout fuel _ _ (newWindow st)
          (by rw [newWindow_frozen st h]; exact h), newWindow_frozen st h]
      · rw [if_neg hpn2, createLoop_frozen sess P layout fuel _ _ st h]
    · rw [if_neg hpn]

/-- The loop with no panes left returns at once. -/
theorem createLoop_nonpos (sess : PyStr) (P : Int) (layout : PyStr) (fuel : Nat) (pn : Int)
    (cmds : List (List PyStr)) (st : St) (h : ¬ pn > 0) :
    createLoop sess P layout fuel pn cmds st = (st, []) := by
  cases fuel with
  | zero => rfl
  | succ f => rw [createLoop, if_neg h]

/-! ## The carving step under the cap -/

/-- Effect of `m` split-and-relayout iterations on a state whose current
window is the freshly created last one: under the cap, the last window
gains `m` panes and the counter rises by `m`. -/
theorem splitFold_spec (layout : PyStr) :
    ∀ (m : Nat) (st : St) (ws : List Nat) (c : Nat),
      st.err = none → st.windows = ws ++ [c] → st.current = ws.length →
      st.totalPanes + m ≤ MAX_PANES →
      ((List.range m).foldl (fun s _ => tcmdEff (.selectLayout layout) (splitWindow s)) st).windows
          = ws ++ [c + m]
      ∧ ((List.range m).foldl (fun s _ => tcmdEff (.selectLayout layout) (splitWindow s)) st).current
          = ws.length
      ∧ ((List.range m).foldl (fun s _ => tcmdEff (.selectLayout layout) (splitWindow s)) st).totalPanes
          = st.totalPanes + m
      ∧ ((List.range m).foldl (fun s _ => tcmdEff (.selectLayout layout) (splitWindow s)) st).err
          = none := by
  intro m
  induction m with
  | zero =>
    intro st ws c he hw hc _
    simp only [List.range_zero, List.foldl_nil]
    exact ⟨hw, hc, rfl, he⟩
  | succ m ih =>
    intro st ws c he hw hc hcap
    rw [List.range_succ, List.foldl_append]
    obtain ⟨h1, h2, h3, h4⟩ := ih st ws c he hw hc (by omega)
    set r := (List.range m).foldl (fun s _ => tcmdEff (.selectLayout layout) (splitWindow s)) st
      with hr
    have hsplit : (splitWindow r).windows = ws ++ [c + m + 1]
        ∧ (splitWindow r).current = ws.length
        ∧ (splitWindow r).totalPanes = st.totalPanes + m + 1
        ∧ (splitWindow r).err = none := by
      rw [splitWindow, if_neg (by simp [h4]), if_pos (by rw [h3]; omega)]
      refine ⟨?_, h2, by rw [h3], h4⟩
      rw [h1, h2]
      simp [List.set_append, List.getD_append_right]
    simp only [List.foldl_cons, List.foldl_nil]
    obtain ⟨g1, g2, g3, g4⟩ := tcmdEff_fields (.selectLayout layout) (splitWindow r)
    exact ⟨g1.trans hsplit.1, g2.trans hsplit.2.1,
      g3.trans hsplit.2.2.1, g4.trans hsplit.2.2.2⟩

/-- `carvePanes` under the cap: the freshly created current window is cut
into `P` panes (`P-1` splits), the counter rises by `P-1`, and the
returned window number is the current window's index. -/
theorem carvePanes_spec (P : Int) (layout : PyStr) (st : St) (ws : List Nat)
    (hP : 1 ≤ P)
    (he : st.err = none) (hw : st.windows = ws ++ [1]) (hc : st.current = ws.length)
    (hcap : st.totalPanes + (P.toNat - 1) ≤ MAX_PANES) :
    (carvePanes P layout st).1.windows = ws ++ [P.toNat]
    ∧ (carvePanes P layout st).1.current = ws.length
    ∧ (carvePanes P layout st).1.totalPanes = st.totalPanes + (P.toNat - 1)
    ∧ (carvePanes P layout st).1.err = none
    ∧ (carvePanes P layout st).2 = ws.length := by
  have hm : (P - 1).toNat = P.toNat - 1 := by omega
  rw [carvePanes]
  simp only [hm]
  obtain ⟨h1, h2, h3, h4⟩ := splitFold_spec layout (P.toNat - 1) st ws 1 he hw hc hcap
  set r := (List.range (P.toNat - 1)).foldl
    (fun s _ => tcmdEff (.selectLayout layout) (splitWindow s)) st with hrr
  obtain ⟨g1, g2, g3, g4⟩ := tcmdEff_fields (.selectLayout layout) r
  have hP1 : 1 + (P.toNat - 1) = P.toNat := by omega
  exact ⟨g1.trans (by rw [h1, hP1]), g2.trans h2, g3.trans h3, g4.trans h4, g2.trans h2⟩

/-- `newWindow` under the cap, as an explicit record equation. -/
theorem newWindow_eq (st : St) (he : st.err = none) (hcap : st.totalPanes < MAX_PANES) :
    newWindow st =
      { st with
        trace := st.trace ++ [Tcmd.newWindow], windows := st.windows ++ [1],
        current := st.windows.length, totalPanes := st.totalPanes + 1 } := by
  rw [newWindow, if_neg (by simp [he]), if_pos hcap]

/-! ## The create loop under the cap -/

/-- Closed form of the `create` loop, starting from a state whose current
window is the freshly available last window: provided the run never hits
the pane cap and raises no exception, it carves `⌈N/P⌉` windows of `P`
panes each (also the last one, however few pane-scripts remain), counts
`⌈N/P⌉·P - 1` new panes/windows, and dispatches the `i`-th pane-script to
pane `i mod P` of the `⌊i/P⌋`-th carved window. -/
theorem createLoop_spec (sess : PyStr) (P : Int) (layout : PyStr) (hP : 1 ≤ P) :
    ∀ (fuel : Nat) (cmds : List (List PyStr)) (st : St) (ws : List Nat),
      st.windows = ws ++ [1] → st.current = ws.length → st.err = none →
      cmds.length ≤ fuel → 1 ≤ cmds.length →
      st.totalPanes + ((cmds.length + P.toNat - 1) / P.toNat) * P.toNat ≤ MAX_PANES + 1 →
      (createLoop sess P layout fuel (cmds.length : Int) cmds st).1.err = none →
      (createLoop sess P layout fuel (cmds.length : Int) cmds st).1.windows =
          ws ++ List.replicate ((cmds.length + P.toNat - 1) / P.toNat) P.toNat
        ∧ (createLoop sess P layout fuel (cmds.length : Int) cmds st).1.current =
          ws.length + ((cmds.length + P.toNat - 1) / P.toNat) - 1
        ∧ (createLoop sess P layout fuel (cmds.length : Int) cmds st).1.totalPanes =
          st.totalPanes + ((cmds.length + P.toNat - 1) / P.toNat) * P.toNat - 1
        ∧ (createLoop sess P layout fuel (cmds.length : Int) cmds st).2 =
          (List.range cmds.length).map (fun i => (ws.length + i / P.toNat, i % P.toNat)) := by
  intro fuel
  induction fuel with
  | zero =>
    intro cmds st ws _ _ _ hfuel hN _ _
    omega
  | succ f ih =>
    intro cmds st ws hw hc he hfuel hN hcap herr
    rw [createLoop, if_pos (by exact_mod_cast Nat.lt_of_lt_of_le Nat.zero_lt_one hN)] at herr ⊢
    simp only at herr ⊢
    revert herr hcap hfuel hN
    generalize hNg : cmds.length = N
    generalize hpg : P.toNat = p
    intro hfuel hN hcap herr
    have hp1 : 1 ≤ p := by omega
    have hW1 : 1 ≤ (N + p - 1) / p := by
      rw [Nat.le_div_iff_mul_le (by omega)]
      omega
    have hpW : p ≤ (N + p - 1) / p * p := Nat.le_mul_of_pos_left p hW1
    -- the carve step
    obtain ⟨hc1, hc2, hc3, hc4, hc5⟩ := carvePanes_spec P layout st ws hP he hw hc (by omega)
    rw [hpg] at hc1 hc3
    -- the dispatch fold preserves the layout fields
    obtain ⟨hf1, hf2, hf3⟩ := foldl_fields
      (fun s i => sendCommandList sess (cmds.getD i []) ((carvePanes P layout st).2 : Int)
        (i : Int) (osEff (.printNum i) s))
      (fun s i => by
        obtain ⟨a1, a2, a3⟩ := sendCommandList_fields sess (cmds.getD i [])
          ((carvePanes P layout st).2 : Int) (i : Int) (osEff (.printNum i) s)
        obtain ⟨b1, b2, b3, _⟩ := osEff_fields (.printNum i) s
        exact ⟨a1.trans b1, a2.trans b2, a3.trans b3⟩)
      (List.range (P ⊓ (N : Int)).toNat) (carvePanes P layout st).1
    set st2 := (List.range (P ⊓ (N : Int)).toNat).foldl
      (fun s i => sendCommandList sess (cmds.getD i []) ((carvePanes P layout st).2 : Int)
        (i : Int) (osEff (.printNum i) s)) (carvePanes P layout st).1 with hst2
    have hw2 : st2.windows = ws ++ [p] := hf1.trans hc1
    have hcur2 : st2.current = ws.length := hf2.trans hc2
    have htp2 : st2.totalPanes = st.totalPanes + (p - 1) := hf3.trans hc3
    -- the dispatch fold raised no exception (otherwise the final state would carry it)
    have he2 : st2.err = none := by
      cases hoe : st2.err with
      | none => rfl
      | some e =>
        exfalso
        have hs : st2.err.isSome = true := by rw [hoe]; rfl
        have hfr : (newWindow st2).err.isSome = true := by
          rw [newWindow_frozen st2 hs]
          exact hs
        by_cases hpn2 : (N : Int) - P > 0
        · rw [if_pos hpn2, createLoop_frozen sess P layout f _ _ (newWindow st2) hfr,
            newWindow_frozen st2 hs, hoe] at herr
          exact Option.noConfusion herr
        · rw [if_neg hpn2, createLoop_frozen sess P layout f _ _ st2 hs, hoe] at herr
          exact Option.noConfusion herr
    by_cases hNp : N ≤ p
    · -- last group: every remaining pane-script fits in this window
      have hk : (P ⊓ (N : Int)).toNat = N := by omega
      have hW : (N + p - 1) / p = 1 := Nat.div_eq_of_lt_le (by omega) (by omega)
      have hdropN : cmds.drop (P ⊓ (N : Int)).toNat = [] := by
        rw [hk, ← hNg, List.drop_length]
      have hpn2 : ¬ ((N : Int) - P > 0) := by omega
      rw [if_neg hpn2, hdropN] at herr ⊢
      rw [createLoop_nonpos sess P layout f _ [] st2 hpn2] at herr ⊢
      refine ⟨?_, ?_, ?_, ?_⟩
      · rw [hw2, hW, List.replicate_one]
      · rw [hcur2, hW]
        omega
      · rw [htp2, hW]
        omega
      · rw [List.append_nil, hk, hc5]
        apply List.map_congr_left
        intro i hi
        rw [List.mem_range] at hi
        rw [Nat.div_eq_of_lt (by omega), Nat.mod_eq_of_lt (by omega)]
        simp
    · -- a full group of p pane-scripts, then the loop continues
      push_neg at hNp
      have hk : (P ⊓ (N : Int)).toNat = p := by omega
      have hlen2 : (cmds.drop (P ⊓ (N : Int)).toNat).length = N - p := by
        rw [hk, List.length_drop, hNg]
      have hpn2 : (N : Int) - P > 0 := by omega
      rw [if_pos hpn2] at herr ⊢
      have hcap2 : st2.totalPanes < MAX_PANES := by
        have h2p : 2 * p ≤ (N + p - 1) / p * p := by
          apply Nat.mul_le_mul_right
          rw [Nat.le_div_iff_mul_le (by omega)]
          omega
        rw [htp2, MAX_PANES]
        rw [MAX_PANES] at hcap
        omega
      -- the in-between newWindow
      rw [newWindow_eq st2 he2 hcap2] at herr ⊢
      set st3 : St := { st2 with
        trace := st2.trace ++ [Tcmd.newWindow], windows := st2.windows ++ [1],
        current := st2.windows.length, totalPanes := st2.totalPanes + 1 } with hst3
      have hWsplit : (N + p - 1) / p = (N - p + p - 1) / p + 1 := by
        have e1 : N + p - 1 = (N - 1) + p := by omega
        have e2 : N - p + p - 1 = N - 1 := by omega
        rw [e1, e2, Nat.add_div_right _ (by omega)]
      have hpncast : (N : Int) - P = ((cmds.drop (P ⊓ (N : Int)).toNat).length : Int) := by
        rw [hlen2]
        omega
      rw [hpncast] at herr ⊢
      obtain ⟨i1, i2, i3, i4⟩ := ih (cmds.drop (P ⊓ (N : Int)).toNat) st3 (ws ++ [p])
        (by rw [hst3]; simp only; rw [hw2])
        (by rw [hst3]; simp only; rw [hw2])
        (by rw [hst3]; exact he2)
        (by rw [hlen2]; omega)
        (by rw [hlen2]; omega)
        (by
          simp only [hst3, hlen2, hpg]
          have hWm : ((N - p + p - 1) / p) * p + p = ((N + p - 1) / p) * p := by
            rw [hWsplit, Nat.succ_mul]
          rw [htp2]
          omega)
        herr
      have hWd : ((cmds.drop (P ⊓ (N : Int)).toNat).length + p - 1) / p
          = (N - p + p - 1) / p := by
        rw [hlen2]
      have hrange : List.range ((cmds.drop (P ⊓ (N : Int)).toNat).length)
          = List.range (N - p) := by
        rw [hlen2]
      rw [hpg] at i1 i2 i3 i4
      rw [hWd] at i1 i2 i3
      rw [hrange] at i4
      refine ⟨?_, ?_, ?_, ?_⟩
      · rw [i1, hWsplit]
        rw [List.replicate_succ]
        simp
      · rw [i2, hWsplit]
        simp only [List.length_append, List.length_cons, List.length_nil]
        omega
      · rw [i3]
        simp only [hst3]
        rw [htp2, hWsplit, Nat.succ_mul]
        have hW'1 : 1 ≤ (N - p + p - 1) / p := by
          rw [Nat.le_div_iff_mul_le (by omega)]
          omega
        have hW'p : p ≤ ((N - p + p - 1) / p) * p := Nat.le_mul_of_pos_left p hW'1
        omega
      · rw [i4, hc5, hk]
        have hNsum : N = p + (N - p) := by omega
        conv_rhs => rw [hNsum]
        rw [List.range_add, List.map_append, List.map_map]
        congr 1
        · apply List.map_congr_left
          intro i hi
          rw [List.mem_range] at hi
          rw [Nat.div_eq_of_lt (by omega), Nat.mod_eq_of_lt (by omega)]
          simp
        · apply List.map_congr_left
          intro j hj
          simp only [Function.comp_apply, List.length_append, List.length_cons,
            List.length_nil]
          have hdiv : (p + j) / p = j / p + 1 := by
            rw [Nat.add_comm p j, Nat.add_div_right _ (by omega)]
          have hmod : (p + j) % p = j % p := Nat.add_mod_left p j
          rw [hdiv, hmod]
          simp [Prod.ext_iff]
          omega



/-- The fresh-process `create` reduces to the loop run from the
newly-created session (one window, one pane, counter 0), followed by
`attach-session`. -/
theorem createFresh_loop (sess : PyStr) (P : Int) (commands : List (List PyStr))
    (layout : PyStr) (hP1 : 1 ≤ P) (hP30 : P ≤ 30) :
    createFresh sess P commands layout =
      (tcmdEff .attachSession
        (createLoop sess P layout (commands.map digestCommands).length
          ((commands.map digestCommands).length : Int) (commands.map digestCommands)
          (⟨0, [1], 0, [Tcmd.newSession], [OsEff.sttyQuery], none⟩ : St)).1,
       (createLoop sess P layout (commands.map digestCommands).length
          ((commands.map digestCommands).length : Int) (commands.map digestCommands)
          (⟨0, [1], 0, [Tcmd.newSession], [OsEff.sttyQuery], none⟩ : St)).2) := by
  rw [createFresh, create, if_neg (by omega), if_neg (by omega)]
  simp only [Bool.false_eq_true, false_and, if_false, not_false_eq_true, if_pos]
  rfl

/-- The fresh-process `create` under the cap: windows, counter and
assigned coordinates in closed form. -/
theorem createFresh_spec (sess : PyStr) (P : Int) (commands : List (List PyStr))
    (layout : PyStr) (hP1 : 1 ≤ P) (hP30 : P ≤ 30) (hN : 1 ≤ commands.length)
    (hcap : ((commands.length + P.toNat - 1) / P.toNat) * P.toNat ≤ MAX_PANES + 1)
    (herr : (createFresh sess P commands layout).1.err = none) :
    (createFresh sess P commands layout).1.windows =
        List.replicate ((commands.length + P.toNat - 1) / P.toNat) P.toNat
    ∧ (createFresh sess P commands layout).1.totalPanes =
        ((commands.length + P.toNat - 1) / P.toNat) * P.toNat - 1
    ∧ (createFresh sess P commands layout).2 =
        (List.range commands.length).map (fun i => (i / P.toNat, i % P.toNat)) := by
  rw [createFresh_loop sess P commands layout hP1 hP30] at herr ⊢
  simp only at herr ⊢
  set st0 : St := ⟨0, [1], 0, [Tcmd.newSession], [OsEff.sttyQuery], none⟩ with hst0
  have hlm : (commands.map digestCommands).length = commands.length := List.length_map _ _
  have herr2 : (createLoop sess P layout (commands.map digestCommands).length
      ((commands.map digestCommands).length : Int) (commands.map digestCommands) st0).1.err
      = none := by
    obtain ⟨_, _, _, h4⟩ := tcmdEff_fields .attachSession
      (createLoop sess P layout (commands.map digestCommands).length
        ((commands.map digestCommands).length : Int) (commands.map digestCommands) st0).1
    rw [h4] at herr
    exact herr
  obtain ⟨s1, s2, s3, s4⟩ := createLoop_spec sess P layout hP1
    (commands.map digestCommands).length (commands.map digestCommands) st0 []
    (by rw [hst0]; rfl)
    (by rw [hst0]; rfl)
    (by rw [hst0])
    (le_refl _)
    (by rw [hlm]; exact hN)
    (by rw [hst0]; simp only; rw [hlm]; omega)
    herr2
  obtain ⟨t1, t2, t3, t4⟩ := tcmdEff_fields .attachSession
    (createLoop sess P layout (commands.map digestCommands).length
      ((commands.map digestCommands).length : Int) (commands.map digestCommands) st0).1
  have hdivEq : ((commands.map digestCommands).length + P.toNat - 1) / P.toNat
      = (commands.length + P.toNat - 1) / P.toNat := by
    rw [hlm]
  have hrangeEq : List.range (commands.map digestCommands).length
      = List.range commands.length := by
    rw [hlm]
  rw [hdivEq] at s1 s3
  rw [hrangeEq] at s4
  refine ⟨?_, ?_, ?_⟩
  · rw [t1, s1]
    simp
  · rw [t3, s3, hst0]
    simp
  · rw [s4]
    simp


/-- The coordinates the `create` loop hands out with capacity 1 and empty
pane-scripts, from a state with `w` windows, current window `cur` and `tp`
panes counted: each round dispatches one script to pane 0 of the current
window, and the in-between `newWindow` moves to a fresh window only while
the counter is below the cap, so once it is reached the current window
index repeats. -/
def expCoords : Nat → Nat → Nat → Nat → List (Nat × Nat)
  | _, _, _, 0 => []
  | _, cur, _, 1 => [(cur, 0)]
  | w, cur, tp, n + 2 =>
    (cur, 0) :: (if tp < MAX_PANES then expCoords (w + 1) w (tp + 1) (n + 1)
      else expCoords w cur tp (n + 1))

theorem createLoop_one_empty (sess layout : PyStr) :
    ∀ (fuel n : Nat) (st : St), n ≤ fuel → st.err = none →
      (createLoop sess 1 layout fuel (n : Int) (List.replicate n ([] : List PyStr)) st).2 =
        expCoords st.windows.length st.current st.totalPanes n := by
  intro fuel
  induction fuel with
  | zero =>
    intro n st hn he
    have hn0 : n = 0 := by omega
    subst hn0
    rfl
  | succ f ih =>
    intro n st hn he
    rcases n with _ | n
    · simp only [Nat.cast_zero]
      rw [createLoop_nonpos sess 1 layout (f + 1) 0 _ st (by omega)]
      rfl
    · rw [createLoop, if_pos (by exact_mod_cast Nat.succ_pos n)]
      simp only [List.length_replicate]
      -- carving with capacity 1 performs no split
      have hcz : (1 - 1 : Int).toNat = 0 := by decide
      have hc : carvePanes 1 layout st =
          (tcmdEff (.selectLayout layout) st, (tcmdEff (.selectLayout layout) st).current) := by
        rw [carvePanes, hcz, List.range_zero, List.foldl_nil]
      have hk : ((1 : Int) ⊓ ((n + 1 : Nat) : Int)).toNat = 1 := by omega
      rw [hc, hk]
      obtain ⟨c1, c2, c3, c4⟩ := tcmdEff_fields (.selectLayout layout) st
      -- the one dispatched script is empty, so the fold only logs effects
      set body := fun (s : St) (i : Nat) =>
        sendCommandList sess ((List.replicate (n + 1) ([] : List PyStr)).getD i [])
          ((tcmdEff (.selectLayout layout) st).current : Int) (i : Int)
          (osEff (.printNum i) s) with hbody
      obtain ⟨g1, g2, g3⟩ := foldl_fields body
        (fun s i => by
          rw [hbody]
          obtain ⟨a1, a2, a3⟩ := sendCommandList_fields sess _ _ _ (osEff (.printNum i) s)
          obtain ⟨b1, b2, b3, _⟩ := osEff_fields (.printNum i) s
          exact ⟨a1.trans b1, a2.trans b2, a3.trans b3⟩)
        (List.range 1) (tcmdEff (.selectLayout layout) st)
      set st2 := (List.range 1).foldl body (tcmdEff (.selectLayout layout) st) with hst2
      have he2 : st2.err = none := by
        have hr1 : List.range 1 = [0] := rfl
        rw [hst2, hr1]
        simp only [List.foldl_cons, List.foldl_nil, hbody]
        have hempty : (List.replicate (n + 1) ([] : List PyStr)).getD 0 [] = [] := by
          simp [List.replicate_succ]
        rw [hempty, sendCommandList]
        simp only [List.foldl_nil]
        obtain ⟨_, _, _, d4⟩ := osEff_fields OsEff.sleep
          (osEff (.printNum 0) (tcmdEff (.selectLayout layout) st))
        obtain ⟨_, _, _, d5⟩ := osEff_fields (OsEff.printNum 0)
          (tcmdEff (.selectLayout layout) st)
        rw [d4, d5, c4, he]
      have hw2 : st2.windows = st.windows := g1.trans c1
      have hcur2 : st2.current = st.current := g2.trans c2
      have htp2 : st2.totalPanes = st.totalPanes := g3.trans c3
      have hdrop : (List.replicate (n + 1) ([] : List PyStr)).drop 1 =
          List.replicate n ([] : List PyStr) := by
        simp [List.replicate_succ]
      rw [hdrop]
      rcases n with _ | m
      · -- a single script: the loop ends without a new window
        rw [if_neg (by omega)]
        rw [createLoop_nonpos sess 1 layout f _ _ st2 (by omega)]
        have hr1 : List.range 1 = [0] := rfl
        rw [expCoords, hr1]
        simp [c2]
      · -- more scripts follow: a new window (a no-op at the cap), then recurse
        rw [if_pos (by omega)]
        have hcast : ((m + 2 : Nat) : Int) - 1 = ((m + 1 : Nat) : Int) := by omega
        rw [hcast]
        have hne : (newWindow st2).err = st2.err := by
          rw [newWindow]
          split
          · rfl
          · split <;> rfl
        rw [ih (m + 1) (newWindow st2) (by omega) (by rw [hne]; exact he2)]
        have hr1 : List.range 1 = [0] := rfl
        rw [expCoords, hr1]
        by_cases hcap : st2.totalPanes < MAX_PANES
        · have q1 : (newWindow st2).windows.length = st2.windows.length + 1 := by
            rw [newWindow_eq st2 he2 hcap]
            simp
          have q2 : (newWindow st2).current = st2.windows.length := by
            rw [newWindow_eq st2 he2 hcap]
          have q3 : (newWindow st2).totalPanes = st2.totalPanes + 1 := by
            rw [newWindow_eq st2 he2 hcap]
          rw [q1, q2, q3, hw2, htp2,
            if_pos (show st.totalPanes < MAX_PANES from htp2 ▸ hcap)]
          simp [c2]
        · have hnw : newWindow st2 = st2 := by
            rw [newWindow, if_neg (by simp [he2]), if_neg hcap]
          rw [hnw, hw2, hcur2, htp2,
            if_neg (show ¬ st.totalPanes < MAX_PANES from htp2 ▸ hcap)]
          simp [c2]


/-- Claim C1 as amended: from a fresh process, for `N ≥ 1` pane-scripts
and capacity `P` in `[1,30]`, provided the global pane cap is never hit
(`⌈N/P⌉·P ≤ 501`) and the run raises no exception, `create` carves
`⌈N/P⌉` windows and splits every one of them into `P` panes — including
the last window, even when fewer than `P` pane-scripts remain for it. -/
theorem create_carves (sess : PyStr) (P : Int) (commands : List (List PyStr)) (layout : PyStr)
    (hP1 : 1 ≤ P) (hP30 : P ≤ 30) (hN : 1 ≤ commands.length)
    (hcap : ((commands.length + P.toNat - 1) / P.toNat) * P.toNat ≤ MAX_PANES + 1)
    (herr : (createFresh sess P commands layout).1.err = none) :
    (createFresh sess P commands layout).1.windows =
        List.replicate ((commands.length + P.toNat - 1) / P.toNat) P.toNat
    ∧ (createFresh sess P commands layout).1.windows.length =
        (commands.length + P.toNat - 1) / P.toNat := by
  obtain ⟨h1, _, _⟩ := createFresh_spec sess P commands layout hP1 hP30 hN hcap herr
  exact ⟨h1, by rw [h1]; simp⟩

/-- Counterexample to claim C1 as stated: with capacity 2 and three
pane-scripts the two windows hold 2 and 2 panes — not 2 and 1 as the
min(P, remaining) rule would give. -/
theorem create_carves_cex :
    (createFresh ('s' :: []) 2 [[('a' :: [])], [('b' :: [])], [('c' :: [])]]
        ('t' :: [])).1.windows = [2, 2]
    ∧ ¬ ((createFresh ('s' :: []) 2 [[('a' :: [])], [('b' :: [])], [('c' :: [])]]
        ('t' :: [])).1.windows = [2, 1]) := by
  exact ⟨by decide, by decide⟩

/-- Witness for C1 (amended) at capacity 2 with three pane-scripts. -/
theorem create_carves_witness :
    (createFresh ('s' :: []) 2 [[('a' :: [])], [('b' :: [])], [('c' :: [])]]
        ('t' :: [])).1.windows = List.replicate 2 2 :=
  (create_carves ('s' :: []) 2 [[('a' :: [])], [('b' :: [])], [('c' :: [])]] ('t' :: [])
    (by decide) (by decide) (by decide) (by decide) (by decide)).1

/-- Claim C2 as amended: from a fresh process, under the same cap and
error-free conditions, `create` assigns exactly `N` distinct coordinates
in declaration order, the `i`-th pane-script going to pane `i mod P` of
the `⌊i/P⌋`-th carved window. -/
theorem create_coords (sess : PyStr) (P : Int) (commands : List (List PyStr)) (layout : PyStr)
    (hP1 : 1 ≤ P) (hP30 : P ≤ 30) (hN : 1 ≤ commands.length)
    (hcap : ((commands.length + P.toNat - 1) / P.toNat) * P.toNat ≤ MAX_PANES + 1)
    (herr : (createFresh sess P commands layout).1.err = none) :
    (createFresh sess P commands layout).2 =
        (List.range commands.length).map (fun i => (i / P.toNat, i % P.toNat))
    ∧ (createFresh sess P commands layout).2.length = commands.length
    ∧ (createFresh sess P commands layout).2.Nodup := by
  obtain ⟨_, _, h3⟩ := createFresh_spec sess P commands layout hP1 hP30 hN hcap herr
  refine ⟨h3, by rw [h3]; simp, ?_⟩
  rw [h3]
  apply List.Nodup.map_on
  · intro i _ j _ hij
    rw [Prod.mk.injEq] at hij
    obtain ⟨hd, hm⟩ := hij
    calc i = P.toNat * (i / P.toNat) + i % P.toNat := (Nat.div_add_mod i P.toNat).symm
      _ = P.toNat * (j / P.toNat) + j % P.toNat := by rw [hd, hm]
      _ = j := Nat.div_add_mod j P.toNat
  · exact List.nodup_range _

set_option maxRecDepth 40000 in
/-- Counterexample to claim C2 as stated: with capacity 1 and 502 empty
pane-scripts, the pane cap blocks the 502nd `new-window`, so the current
window index repeats and the coordinates of the 501st and 502nd
pane-scripts coincide at `(500, 0)` — they are neither distinct nor in the
`⌊i/P⌋`-th created window. -/
theorem create_coords_cex :
    (createFresh ('s' :: []) 1 (List.replicate 502 ([] : List PyStr)) ('t' :: [])).2 =
        expCoords 1 0 0 502
    ∧ (expCoords 1 0 0 502).length = 502
    ∧ (expCoords 1 0 0 502).get? 500 = some (500, 0)
    ∧ (expCoords 1 0 0 502).get? 501 = some (500, 0)
    ∧ ¬ (expCoords 1 0 0 502).Nodup := by
  refine ⟨?_, by decide, by decide, by decide, by decide⟩
  rw [createFresh_loop ('s' :: []) 1 (List.replicate 502 ([] : List PyStr)) ('t' :: [])
    (by decide) (by decide)]
  simp only
  have hdg : (List.replicate 502 ([] : List PyStr)).map digestCommands =
      List.replicate 502 ([] : List PyStr) := by
    rw [List.map_replicate]
    rfl
  rw [hdg, List.length_replicate]
  exact createLoop_one_empty ('s' :: []) ('t' :: []) 502 502
    (⟨0, [1], 0, [Tcmd.newSession], [OsEff.sttyQuery], none⟩ : St) (le_refl _) rfl

/-- Witness for C2 (amended) at capacity 2 with three pane-scripts. -/
theorem create_coords_witness :
    (createFresh ('s' :: []) 2 [[('x' :: [])], [('y' :: [])], [('z' :: [])]]
        ('t' :: [])).2 = [(0, 0), (0, 1), (1, 0)]
    ∧ (createFresh ('s' :: []) 2 [[('x' :: [])], [('y' :: [])], [('z' :: [])]]
        ('t' :: [])).2.Nodup := by
  obtain ⟨h1, _, h3⟩ := create_coords ('s' :: []) 2
    [[('x' :: [])], [('y' :: [])], [('z' :: [])]] ('t' :: [])
    (by decide) (by decide) (by decide) (by decide) (by decide)
  exact ⟨by rw [h1]; rfl, h3⟩

end smux
